import Mathlib

/-!
Shallow embedding of the core of the `academy` multi-agent runtime:
the HTTP exchange server's mailbox manager (`academy/exchange/cloud/server.py`),
the agent lifecycle and action dispatch (`academy/agent.py`), the launcher
(`academy/launcher.py`), and the exchange clients (`academy/exchange/__init__.py`).

Python dictionaries are embedded as association lists, machine state as explicit
records, and exception-raising code as `Except`-valued functions.  Side effects
that the verified properties talk about (pool shutdowns, hook invocations, ...)
are recorded in explicit traces.
-/

set_option maxHeartbeats 1000000

namespace Academy

/-- Association-list lookup with Python `dict` membership semantics:
`alookup l k` is `l[k]` when `k in l`, else `none`. -/
def alookup {α β : Type} [DecidableEq α] : List (α × β) → α → Option β
  | [], _ => none
  | (k', v) :: rest, k => if k' = k then some v else alookup rest k

/-- Association-list update with Python `dict` assignment semantics:
`ainsert l k v` replaces the value at the first occurrence of `k`, or appends
`(k, v)` when `k` is absent. -/
def ainsert {α β : Type} [DecidableEq α] : List (α × β) → α → β → List (α × β)
  | [], k, v => [(k, v)]
  | (k', v') :: rest, k, v =>
    if k' = k then (k, v) :: rest else (k', v') :: ainsert rest k v

theorem alookup_ainsert {α β : Type} [DecidableEq α]
    (l : List (α × β)) (k k' : α) (v : β) :
    alookup (ainsert l k v) k' = if k = k' then some v else alookup l k' := by
  induction l with
  | nil => simp [ainsert, alookup]
  | cons hd tl ih =>
    obtain ⟨k₀, v₀⟩ := hd
    by_cases h₀ : k₀ = k
    · subst h₀
      by_cases h₁ : k₀ = k'
      · subst h₁; simp [ainsert, alookup]
      · simp [ainsert, alookup, h₁]
    · by_cases h₁ : k₀ = k'
      · subst h₁
        have : ¬ k = k₀ := fun h => h₀ h.symm
        simp [ainsert, alookup, h₀, this]
      · simp [ainsert, alookup, h₀, h₁, ih]

/-- Entity identifiers (`academy/identifier.py`): an `EntityId` is either an
`AgentId` or a `UserId`, each wrapping a unique value (embedded as `Nat`). -/
inductive EntityId where
  | agent (uid : Nat)
  | user (uid : Nat)
deriving DecidableEq

/-- Whether the entity id is an `AgentId` (the `isinstance(uid, AgentId)`
check in `_MailboxManager.create_mailbox`). -/
def EntityId.isAgent : EntityId → Bool
  | .agent _ => true
  | .user _ => false

/-- Failure modes of queue operations (`academy/exchange/queue.py` contract,
spec section 4.2): a closed queue rejects `put` and an empty closed queue
rejects `get`; an empty open queue times out a bounded `get`. -/
inductive QueueErr where
  | closed
  | timeout
deriving DecidableEq

/-- Modelled from the spec: `academy/exchange/queue.py` (`AsyncQueue`) is not
under `src/`; spec section 4.2 gives its contract.  An async FIFO holding a
list of pending messages and a closed flag; a fresh queue is empty and open. -/
structure AsyncQueue (α : Type) where
  messages : List α
  closed : Bool
deriving DecidableEq

/-- Modelled from the spec: a newly constructed `AsyncQueue()` is empty and
open. -/
def AsyncQueue.new {α : Type} : AsyncQueue α := ⟨[], false⟩

/-- Modelled from the spec: `close()` sets the closed flag and is idempotent. -/
def AsyncQueue.close {α : Type} (q : AsyncQueue α) : AsyncQueue α :=
  { q with closed := true }

/-- Modelled from the spec: `put` appends to the FIFO and fails with
`QueueClosedError` on a closed queue. -/
def AsyncQueue.put {α : Type} (q : AsyncQueue α) (m : α) :
    Except QueueErr (AsyncQueue α) :=
  if q.closed then .error .closed
  else .ok { q with messages := q.messages ++ [m] }

/-- Modelled from the spec: `get` returns the next message (a closed queue
drains remaining messages), fails with `QueueClosedError` when closed and
empty, and with a timeout when open and empty. -/
def AsyncQueue.get {α : Type} (q : AsyncQueue α) :
    Except QueueErr (α × AsyncQueue α) :=
  match q.messages with
  | m :: rest => .ok (m, { q with messages := rest })
  | [] => if q.closed then .error .closed else .error .timeout

/-- Messages as seen by the exchange server: the mailbox manager only ever
inspects the destination; the payload is opaque. -/
structure SrvMsg where
  src : EntityId
  dest : EntityId
  payload : Nat
deriving DecidableEq

/-- Mailbox status reported by `check_mailbox`
(`MailboxStatus` in `academy/exchange/transport.py`). -/
inductive MailboxStatus where
  | MISSING
  | ACTIVE
  | TERMINATED
deriving DecidableEq

/-- Rank of a status in the spec's order ACTIVE = 0, TERMINATED = 1 (with
MISSING below both, reachable only before creation). -/
def MailboxStatus.rank : MailboxStatus → Nat
  | .MISSING => 0
  | .ACTIVE => 1
  | .TERMINATED => 2

/-- Errors raised by `_MailboxManager` operations: `ForbiddenError`,
`BadEntityIdError`, `MailboxClosedError`, a `TimeoutError` from a bounded
`get`, and the unguarded `KeyError`/`IndexError` a faulty state would raise. -/
inductive SrvError where
  | forbidden
  | badEntityId
  | mailboxClosed
  | timeout
  | keyError
  | indexError
deriving DecidableEq

/-- State of `_MailboxManager` (`academy/exchange/cloud/server.py`):
`_owners` maps an entity to the client id recorded at creation (itself an
`Option String`, since unauthenticated requests carry client id `None`),
`_mailboxes` maps entities to their queues, and `_behaviors` maps agent ids
to the behavior MRO recorded at creation. -/
structure ManagerState where
  owners : List (EntityId × Option String)
  mailboxes : List (EntityId × AsyncQueue SrvMsg)
  behaviors : List (EntityId × List String)
deriving DecidableEq

/-- A freshly constructed `_MailboxManager`. -/
def ManagerState.empty : ManagerState := ⟨[], [], []⟩

/-- `_MailboxManager.has_permissions`: an entity with no recorded owner is
accessible to everyone; otherwise the recorded owner must equal the caller. -/
def ManagerState.has_permissions (st : ManagerState) (client : Option String)
    (entity : EntityId) : Bool :=
  match alookup st.owners entity with
  | none => true
  | some owner => decide (owner = client)

/-- `_MailboxManager.check_mailbox`: MISSING when no mailbox exists for the
id, then a permission check, then TERMINATED/ACTIVE from the closed flag. -/
def ManagerState.check_mailbox (st : ManagerState) (client : Option String)
    (uid : EntityId) : Except SrvError MailboxStatus :=
  match alookup st.mailboxes uid with
  | none => .ok .MISSING
  | some mb =>
    if st.has_permissions client uid then
      if mb.closed then .ok .TERMINATED else .ok .ACTIVE
    else .error .forbidden

/-- The state written by the install branch of
`_MailboxManager.create_mailbox`: a fresh queue, the caller recorded as
owner, and (for agent ids with a behavior given) the behavior MRO recorded. -/
def ManagerState.installMailbox (st : ManagerState) (client : Option String)
    (uid : EntityId) (behavior : Option (List String)) : ManagerState :=
  { mailboxes := ainsert st.mailboxes uid AsyncQueue.new
    owners := ainsert st.owners uid client
    behaviors :=
      match behavior with
      | some bs =>
        if uid.isAgent then ainsert st.behaviors uid bs
        else st.behaviors
      | none => st.behaviors }

/-- `_MailboxManager.create_mailbox`: permission check, then install a fresh
queue, record the caller as owner, and (for agent ids with a behavior given)
record the behavior MRO — but only when the mailbox is missing or closed;
an existing open mailbox is left untouched. -/
def ManagerState.create_mailbox (st : ManagerState) (client : Option String)
    (uid : EntityId) (behavior : Option (List String)) :
    Except SrvError ManagerState :=
  if st.has_permissions client uid then
    if (match alookup st.mailboxes uid with
        | none => true
        | some mb => mb.closed) then
      .ok (st.installMailbox client uid behavior)
    else .ok st
  else .error .forbidden

/-- `_MailboxManager.terminate`: permission check, then close the queue if a
mailbox exists; a missing mailbox is a no-op. -/
def ManagerState.terminate (st : ManagerState) (client : Option String)
    (uid : EntityId) : Except SrvError ManagerState :=
  if st.has_permissions client uid then
    match alookup st.mailboxes uid with
    | none => .ok st
    | some mb => .ok { st with mailboxes := ainsert st.mailboxes uid mb.close }
  else .error .forbidden

/-- `_MailboxManager.put`: permission check on the destination, then enqueue;
a missing mailbox raises `BadEntityIdError` and a closed queue raises
`MailboxClosedError`. -/
def ManagerState.put (st : ManagerState) (client : Option String)
    (msg : SrvMsg) : Except SrvError ManagerState :=
  if st.has_permissions client msg.dest then
    match alookup st.mailboxes msg.dest with
    | none => .error .badEntityId
    | some mb =>
      match mb.put msg with
      | .error _ => .error .mailboxClosed
      | .ok mb' => .ok { st with mailboxes := ainsert st.mailboxes msg.dest mb' }
  else .error .forbidden

/-- `_MailboxManager.get`: permission check, then dequeue; a missing mailbox
raises `BadEntityIdError`, a closed empty queue raises `MailboxClosedError`,
and an elapsed timeout raises `TimeoutError`. -/
def ManagerState.get (st : ManagerState) (client : Option String)
    (uid : EntityId) : Except SrvError (SrvMsg × ManagerState) :=
  if st.has_permissions client uid then
    match alookup st.mailboxes uid with
    | none => .error .badEntityId
    | some mb =>
      match mb.get with
      | .error .closed => .error .mailboxClosed
      | .error .timeout => .error .timeout
      | .ok (m, mb') => .ok (m, { st with mailboxes := ainsert st.mailboxes uid mb' })
  else .error .forbidden

/-- State-changing operations of the mailbox manager, as driven by the HTTP
routes: POST /mailbox, DELETE /mailbox, PUT /message, GET /message. -/
inductive ManagerOp where
  | create (client : Option String) (uid : EntityId) (behavior : Option (List String))
  | terminate (client : Option String) (uid : EntityId)
  | put (client : Option String) (msg : SrvMsg)
  | get (client : Option String) (uid : EntityId)
deriving DecidableEq

/-- Whether the operation is a POST /mailbox (`create_mailbox`) call. -/
def ManagerOp.isCreate : ManagerOp → Bool
  | .create _ _ _ => true
  | _ => false

/-- Effect of one manager operation on the server state; a request that the
manager rejects with an error leaves the state unchanged (the route returns
an error status and the manager state is untouched). -/
def ManagerState.step (st : ManagerState) : ManagerOp → ManagerState
  | .create c u b =>
    match st.create_mailbox c u b with
    | .ok st' => st'
    | .error _ => st
  | .terminate c u =>
    match st.terminate c u with
    | .ok st' => st'
    | .error _ => st
  | .put c m =>
    match st.put c m with
    | .ok st' => st'
    | .error _ => st
  | .get c u =>
    match st.get c u with
    | .ok (_, st') => st'
    | .error _ => st

/-- Result of parsing the JSON body of a /mailbox route: either the body is
missing or fails `TypeAdapter(EntityId)` validation, or it yields a mailbox
id. -/
inductive MailboxBody where
  | malformed
  | valid (uid : EntityId)
deriving DecidableEq

/-- The DELETE /mailbox handler (`_terminate_route`): 400 on a malformed
body, 403 when `terminate` raises `ForbiddenError`, else 200; returns the
HTTP status code paired with the resulting manager state. -/
def terminate_route (st : ManagerState) (client : Option String)
    (body : MailboxBody) : Nat × ManagerState :=
  match body with
  | .malformed => (400, st)
  | .valid uid =>
    match st.terminate client uid with
    | .error _ => (403, st)
    | .ok st' => (200, st')

/-- `_MailboxManager.discover`, unrolled over the iteration of the
`_behaviors` dict: skip entries the caller lacks permission for, consult the
(unguarded) `_mailboxes[aid]` lookup, skip closed mailboxes, then keep the
agent when the queried behavior equals the MRO head (the unguarded
`behaviors[0]`) or, with `allow_subclasses`, occurs anywhere in the MRO. -/
def discoverList (st : ManagerState) (client : Option String)
    (behavior : String) (allow_subclasses : Bool) :
    List (EntityId × List String) → Except SrvError (List EntityId)
  | [] => .ok []
  | (aid, bs) :: rest =>
    if st.has_permissions client aid then
      match alookup st.mailboxes aid with
      | none => .error .keyError
      | some mb =>
        if mb.closed then discoverList st client behavior allow_subclasses rest
        else
          match bs.head? with
          | none => .error .indexError
          | some b0 =>
            if behavior = b0 ∨ (allow_subclasses = true ∧ behavior ∈ bs) then
              match discoverList st client behavior allow_subclasses rest with
              | .ok found => .ok (aid :: found)
              | .error e => .error e
            else discoverList st client behavior allow_subclasses rest
    else discoverList st client behavior allow_subclasses rest

/-- `_MailboxManager.discover` applied to the manager's behavior table. -/
def ManagerState.discover (st : ManagerState) (client : Option String)
    (behavior : String) (allow_subclasses : Bool) :
    Except SrvError (List EntityId) :=
  discoverList st client behavior allow_subclasses st.behaviors

/-! ### Agent runtime (`academy/agent.py`) -/

/-- The `_AgentState` lifecycle enum. -/
inductive AgentLifecycle where
  | INITIALIZED
  | STARTING
  | RUNNING
  | TERMINATING
  | SHUTDOWN
deriving DecidableEq

/-- `AgentRunConfig` flags read during startup and shutdown. -/
structure AgentRunConfig where
  close_exchange_on_exit : Bool
  terminate_on_error : Bool
  terminate_on_exit : Bool
deriving DecidableEq

/-- The `AgentRunConfig()` defaults: all three flags on. -/
def AgentRunConfig.default : AgentRunConfig := ⟨true, true, true⟩

/-- Side effects performed by `Agent.start` and `Agent.shutdown`, recorded
as an explicit trace. -/
inductive AgentEvent where
  | bindHandles
  | onSetup
  | createActionPool
  | createLoopPool
  | submitLoop (name : String)
  | submitListener
  | terminateMailbox
  | joinListener
  | shutdownActionPool
  | shutdownLoopPool
  | reregisterAgent
  | onShutdown
  | closeExchange
  | raiseLoopFailures
deriving DecidableEq

/-- Run-time state of an `Agent`: lifecycle state, the shutdown
`threading.Event`, the `_expected_shutdown` flag, the run configuration, the
names of the behavior's `@loop` methods, and the trace of effects performed
so far. -/
structure AgentRt where
  state : AgentLifecycle
  shutdownSet : Bool
  expected_shutdown : Bool
  config : AgentRunConfig
  loops : List String
  trace : List AgentEvent
deriving DecidableEq

/-- A freshly constructed agent: INITIALIZED, event clear, flag false. -/
def AgentRt.init (config : AgentRunConfig) (loops : List String) : AgentRt :=
  ⟨.INITIALIZED, false, false, config, loops, []⟩

/-- `Agent.signal_shutdown`: unconditionally records the expectedness flag
and sets the shutdown event (`expected` defaults to `True` in the source). -/
def AgentRt.signal_shutdown (a : AgentRt) (expected : Bool) : AgentRt :=
  { a with expected_shutdown := expected, shutdownSet := true }

/-- The error raised by `Agent.start` on a SHUTDOWN agent. -/
inductive AgentError where
  | alreadyShutdown
deriving DecidableEq

/-- `Agent.start` under the state lock: raise if SHUTDOWN, return unchanged
if RUNNING, else bind handles, run `on_setup`, create the pools, submit each
loop and the exchange listener, and transition to RUNNING. -/
def AgentRt.start (a : AgentRt) : Except AgentError AgentRt :=
  if a.state = .SHUTDOWN then .error .alreadyShutdown
  else if a.state = .RUNNING then .ok a
  else
    .ok { a with
      state := .RUNNING
      trace := a.trace
        ++ [.bindHandles, .onSetup, .createActionPool, .createLoopPool]
        ++ a.loops.map .submitLoop
        ++ [.submitListener] }

/-- The reconciliation condition in `Agent.shutdown`: re-register the agent
(reviving its mailbox) when the shutdown was expected and `terminate_on_exit`
is off, or unexpected and `terminate_on_error` is off. -/
def AgentRt.reregisters (a : AgentRt) : Bool :=
  (a.expected_shutdown && !a.config.terminate_on_exit)
    || (!a.expected_shutdown && !a.config.terminate_on_error)

/-- `Agent.shutdown` under the state lock: return unchanged if already
SHUTDOWN, else set the shutdown event, terminate the mailbox and join the
listener, shut down both pools, optionally re-register, run `on_shutdown`,
optionally close the exchange, transition to SHUTDOWN, and surface loop
failures. -/
def AgentRt.shutdown (a : AgentRt) : AgentRt :=
  if a.state = .SHUTDOWN then a
  else
    { a with
      state := .SHUTDOWN
      shutdownSet := true
      trace := a.trace
        ++ [.terminateMailbox, .joinListener, .shutdownActionPool,
            .shutdownLoopPool]
        ++ (if a.reregisters then [.reregisterAgent] else [])
        ++ [.onShutdown]
        ++ (if a.config.close_exchange_on_exit then [.closeExchange] else [])
        ++ [.raiseLoopFailures] }

/-! ### Launcher (`academy/launcher.py`) -/

/-- Agent Control Block fields relevant to launch bookkeeping: the agent id
and registration are reused across launches, `launch_count` counts launches,
and `done` is the ACB's done-event. -/
structure ACB where
  agent_id : Nat
  launch_count : Nat
  done : Bool
deriving DecidableEq

namespace Launcher

/-- `Launcher._launch`: construct an Agent with
`terminate_on_error = (launch_count + 1 >= max_restarts)` and submit it,
incrementing `launch_count`.  Returns the updated ACB paired with the
`terminate_on_error` flag of the constructed agent's config. -/
def launchAgent (max_restarts : Nat) (acb : ACB) : ACB × Bool :=
  ({ acb with launch_count := acb.launch_count + 1 },
   decide (acb.launch_count + 1 ≥ max_restarts))

/-- How an agent future finished: normally, cancelled (`CancelledError`,
which is not an `Exception`), or with an `Exception`. -/
inductive FutureOutcome where
  | success
  | cancelled
  | failed
deriving DecidableEq

/-- `Launcher._callback`: on an `Exception` with
`launch_count < max_restarts + 1`, relaunch via `_launch`; otherwise set the
ACB's done-event.  Returns the updated ACB paired with whether a relaunch
happened. -/
def callback (max_restarts : Nat) (acb : ACB) (outcome : FutureOutcome) :
    ACB × Bool :=
  match outcome with
  | .failed =>
    if acb.launch_count < max_restarts + 1 then
      ((launchAgent max_restarts acb).1, true)
    else ({ acb with done := true }, false)
  | _ => ({ acb with done := true }, false)

end Launcher

/-! ### Action dispatch (`academy/agent.py`) -/

/-- Exceptions observable in action dispatch: the `AttributeError` raised by
`Agent.action` for an unknown action name (carrying the behavior type name
and the requested action name), or an exception raised by the action body
(embedded as a code). -/
inductive PyExn where
  | attributeError (behaviorType : String) (actionName : String)
  | raised (code : Nat)
deriving DecidableEq

/-- An entry of the behavior's action table: a callable taking positional
and keyword arguments and either returning a value or raising. -/
def ActionFn : Type := List Nat → List (String × Nat) → Except PyExn Nat

/-- An `ActionRequest` message: label, source, destination, action name,
positional arguments, keyword arguments. -/
structure ActionRequest where
  label : Nat
  src : EntityId
  dest : EntityId
  action : String
  pargs : List Nat
  kargs : List (String × Nat)
deriving DecidableEq

/-- Response messages produced for an action request. -/
inductive ResponseMsg where
  | actionResponse (label : Nat) (src : EntityId) (dest : EntityId) (result : Nat)
  | actionError (label : Nat) (src : EntityId) (dest : EntityId) (exception : PyExn)
deriving DecidableEq

/-- Label carried by a response. -/
def ResponseMsg.label : ResponseMsg → Nat
  | .actionResponse l _ _ _ => l
  | .actionError l _ _ _ => l

/-- Source of a response. -/
def ResponseMsg.src : ResponseMsg → EntityId
  | .actionResponse _ s _ _ => s
  | .actionError _ s _ _ => s

/-- Destination of a response. -/
def ResponseMsg.dest : ResponseMsg → EntityId
  | .actionResponse _ _ d _ => d
  | .actionError _ _ d _ => d

/-- Modelled from the spec: `academy/message.py` is not under `src/`; spec
sections 3 and 4.1 state that building a response from a request preserves
`label` and swaps src/dest.  `ActionRequest.response(result)`. -/
def ActionRequest.response (r : ActionRequest) (result : Nat) : ResponseMsg :=
  .actionResponse r.label r.dest r.src result

/-- Modelled from the spec: `ActionRequest.error(exception)` preserves
`label` and swaps src/dest, carrying the exception. -/
def ActionRequest.error (r : ActionRequest) (exception : PyExn) : ResponseMsg :=
  .actionError r.label r.dest r.src exception

/-- `Agent.action`: look the name up in the behavior's action table built at
construction; raise `AttributeError` when absent, else call the action with
the positional and keyword arguments. -/
def Agent.action (behaviorType : String) (actions : List (String × ActionFn))
    (name : String) (pargs : List Nat) (kargs : List (String × Nat)) :
    Except PyExn Nat :=
  match alookup actions name with
  | none => .error (.attributeError behaviorType name)
  | some f => f pargs kargs

/-- `Agent._execute_action`: call `Agent.action`; a raised exception becomes
an `ActionError` response, a normal return an `ActionResponse`, and exactly
one response is handed to `_send_response`. -/
def Agent.execute_action (behaviorType : String)
    (actions : List (String × ActionFn)) (req : ActionRequest) : ResponseMsg :=
  match Agent.action behaviorType actions req.action req.pargs req.kargs with
  | .error e => req.error e
  | .ok v => req.response v

/-! ### Response-send failure handling
(`Agent._send_response` in `academy/agent.py` and
`UserExchangeClient._handle_message` in `academy/exchange/__init__.py`) -/

/-- Outcome of `transport.send` on a response: success, the two
disappeared-destination errors, or some other exception. -/
inductive SendOutcome where
  | ok
  | badEntityId
  | mailboxClosed
  | otherError (code : Nat)
deriving DecidableEq

/-- `Agent._send_response`: `exchange.send(response)` inside a `try` that
catches `BadEntityIdError` and `MailboxClosedError`, logging and swallowing
them; any other exception propagates. -/
def Agent.send_response (result : SendOutcome) : Except SendOutcome Unit :=
  match result with
  | .ok => .ok ()
  | .badEntityId => .ok ()
  | .mailboxClosed => .ok ()
  | .otherError c => .error (.otherError c)

/-- The response send in `UserExchangeClient._handle_message` for an
incoming request (`self._transport.send(response)`): no surrounding `try`,
so every send failure propagates to the caller (the receive loop). -/
def UserExchangeClient.handle_request_send (result : SendOutcome) :
    Except SendOutcome Unit :=
  match result with
  | .ok => .ok ()
  | e => .error e

/-! ### Concrete sample states used by witnesses and counterexamples -/

/-- A manager holding one open mailbox for agent 0, owned by client "a". -/
def stOwned : ManagerState :=
  ⟨[(.agent 0, some "a")], [(.agent 0, AsyncQueue.new)], []⟩

/-- The manager state reached from empty by: create agent 0's mailbox,
terminate it (POST then DELETE /mailbox, both by the anonymous client). -/
def stCreatedThenTerminated : ManagerState :=
  (ManagerState.empty.step (.create none (.agent 0) none)).step
    (.terminate none (.agent 0))

/-- Spec scenario 2: agents X (MRO [B, A]), Y (MRO [A]), Z (MRO [C]), all
with open, unowned mailboxes. -/
def discoverState : ManagerState :=
  ⟨[],
   [(.agent 1, AsyncQueue.new), (.agent 2, AsyncQueue.new),
    (.agent 3, AsyncQueue.new)],
   [(.agent 1, ["B", "A"]), (.agent 2, ["A"]), (.agent 3, ["C"])]⟩

/-- A freshly constructed agent with default configuration and no loops. -/
def agentRt0 : AgentRt := AgentRt.init AgentRunConfig.default []

/-- An agent observed in the RUNNING state. -/
def agentRunning : AgentRt :=
  ⟨.RUNNING, false, false, AgentRunConfig.default, [],
   [.bindHandles, .onSetup, .createActionPool, .createLoopPool,
    .submitListener]⟩

/-- An agent observed in the SHUTDOWN state. -/
def agentDone : AgentRt :=
  ⟨.SHUTDOWN, true, true, AgentRunConfig.default, [],
   [.bindHandles, .onSetup, .createActionPool, .createLoopPool,
    .submitListener, .terminateMailbox, .joinListener, .shutdownActionPool,
    .shutdownLoopPool, .onShutdown, .closeExchange, .raiseLoopFailures]⟩

/-- An action returning its single positional argument. -/
def echoFn : ActionFn := fun pargs _ =>
  match pargs with
  | [x] => .ok x
  | _ => .error (.raised 1)

/-- An action that always raises. -/
def failFn : ActionFn := fun _ _ => .error (.raised 7)

/-- A behavior action table with an echo action and a failing action. -/
def sampleActions : List (String × ActionFn) := [("echo", echoFn), ("fail", failFn)]

/-- An action request for the echo action. -/
def sampleReq : ActionRequest := ⟨5, .user 1, .agent 2, "echo", [42], []⟩

/-- An action request for the failing action. -/
def sampleReqFail : ActionRequest := ⟨6, .user 1, .agent 2, "fail", [], []⟩

/-- An action request naming an action the behavior does not define. -/
def sampleReqNope : ActionRequest := ⟨7, .user 1, .agent 2, "nope", [], []⟩

/-! ## Theorems -/

/-- C2 counterexample: `signal_shutdown` does not collapse to the first
signal.  Signalling expected (`True`), then unexpected (`False`), leaves the
recorded expectedness flag `False`, though the first call recorded `True`. -/
theorem c2_counterexample :
    ((agentRt0.signal_shutdown true).signal_shutdown false).expected_shutdown
        = false
      ∧ (agentRt0.signal_shutdown true).expected_shutdown = true := by
  exact ⟨rfl, rfl⟩

/-- C2 (amended): after a first `signal_shutdown` and any sequence of later
`signal_shutdown` calls, the recorded expectedness flag equals the value
passed to the most recent call (later signals overwrite earlier ones), and
the shutdown event remains set. -/
theorem c2_signal_shutdown_last_wins (a : AgentRt) (e : Bool)
    (later : List Bool) :
    (later.foldl AgentRt.signal_shutdown (a.signal_shutdown e)).expected_shutdown
        = later.getLastD e
      ∧ (later.foldl AgentRt.signal_shutdown (a.signal_shutdown e)).shutdownSet
        = true := by
  induction later generalizing a e with
  | nil => exact ⟨rfl, rfl⟩
  | cons x xs ih =>
    have h := ih (a.signal_shutdown e) x
    rw [List.foldl_cons, List.getLastD_cons]
    exact h

/-- C3: the launcher's completion callback relaunches (reusing the agent id
and incrementing `launch_count` by exactly one) exactly when the future
raised an `Exception` and `launch_count` is at most `max_restarts`;
otherwise it sets the ACB's done-event; and every launch constructs the
agent with `terminate_on_error` equal to `launch_count + 1 >= max_restarts`. -/
theorem c3_callback_restart (max_restarts : Nat) (acb : ACB)
    (outcome : Launcher.FutureOutcome) :
    ((Launcher.callback max_restarts acb outcome).2 = true ↔
        outcome = .failed ∧ acb.launch_count ≤ max_restarts)
      ∧ ((Launcher.callback max_restarts acb outcome).2 = true →
          (Launcher.callback max_restarts acb outcome).1
            = { acb with launch_count := acb.launch_count + 1 })
      ∧ ((Launcher.callback max_restarts acb outcome).2 = false →
          (Launcher.callback max_restarts acb outcome).1
            = { acb with done := true })
      ∧ (Launcher.launchAgent max_restarts acb).2
          = decide (acb.launch_count + 1 ≥ max_restarts)
      ∧ (Launcher.launchAgent max_restarts acb).1
          = { acb with launch_count := acb.launch_count + 1 } := by
  cases outcome with
  | success => simp [Launcher.callback, Launcher.launchAgent]
  | cancelled => simp [Launcher.callback, Launcher.launchAgent]
  | failed =>
    by_cases h : acb.launch_count < max_restarts + 1
    · simp [Launcher.callback, Launcher.launchAgent, h, Nat.lt_succ_iff.mp h]
    · have h' : ¬ acb.launch_count ≤ max_restarts := fun hle =>
        h (Nat.lt_succ_of_le hle)
      simp [Launcher.callback, Launcher.launchAgent, h, h']

/-- C3 witness: with `max_restarts = 1` and a first failure, the callback
relaunches, incrementing the launch count and keeping the agent id. -/
theorem c3_callback_restart_witness :
    (Launcher.callback 1 ⟨7, 0, false⟩ .failed).2 = true
      ∧ (Launcher.callback 1 ⟨7, 0, false⟩ .failed).1 = ⟨7, 1, false⟩
      ∧ (Launcher.callback 1 ⟨7, 2, false⟩ .failed).1 = ⟨7, 2, true⟩ := by
  have h := c3_callback_restart 1 ⟨7, 0, false⟩ .failed
  have h2 := c3_callback_restart 1 ⟨7, 2, false⟩ .failed
  have hr : (Launcher.callback 1 ⟨7, 0, false⟩ .failed).2 = true :=
    h.1.mpr ⟨rfl, by decide⟩
  have hnr : (Launcher.callback 1 ⟨7, 2, false⟩ .failed).2 = false := by decide
  exact ⟨hr, h.2.1 hr, h2.2.2.1 hnr⟩

/-- C7 counterexample: the user-side client's error-reply send in
`_handle_message` has no exception handler, so a `MailboxClosedError` from
the transport propagates to the caller instead of being swallowed. -/
theorem c7_counterexample :
    UserExchangeClient.handle_request_send .mailboxClosed
        = .error .mailboxClosed
      ∧ UserExchangeClient.handle_request_send .mailboxClosed
        ≠ .ok () := by
  exact ⟨rfl, fun h => Except.noConfusion h⟩

/-- C7 (amended): the agent-side `_send_response` logs and swallows
`BadEntityIdError` and `MailboxClosedError` (propagating only other errors),
while the user-side client's error-reply send in `_handle_message` catches
nothing, so those failures propagate to its caller. -/
theorem c7_send_failure_policy :
    Agent.send_response .ok = .ok ()
      ∧ Agent.send_response .badEntityId = .ok ()
      ∧ Agent.send_response .mailboxClosed = .ok ()
      ∧ (∀ c, Agent.send_response (.otherError c) = .error (.otherError c))
      ∧ UserExchangeClient.handle_request_send .badEntityId
          = .error .badEntityId
      ∧ UserExchangeClient.handle_request_send .mailboxClosed
          = .error .mailboxClosed := by
  exact ⟨rfl, rfl, rfl, fun _ => rfl, rfl, rfl⟩

/-- C8: `start()` on a RUNNING agent returns it unchanged, `start()` on a
SHUTDOWN agent raises the already-shutdown error, and `shutdown()` on a
SHUTDOWN agent returns it unchanged (no shutdown step re-runs: the trace is
untouched). -/
theorem c8_start_shutdown_idempotent (a : AgentRt) :
    (a.state = .RUNNING → a.start = .ok a)
      ∧ (a.state = .SHUTDOWN → a.start = .error .alreadyShutdown)
      ∧ (a.state = .SHUTDOWN → a.shutdown = a) := by
  refine ⟨fun h => ?_, fun h => ?_, fun h => ?_⟩ <;>
    simp [AgentRt.start, AgentRt.shutdown, h]

/-- C8 witness: a RUNNING agent restarts as a no-op and a SHUTDOWN agent
rejects `start()` and ignores `shutdown()`. -/
theorem c8_start_shutdown_idempotent_witness :
    agentRunning.start = .ok agentRunning
      ∧ agentDone.start = .error .alreadyShutdown
      ∧ agentDone.shutdown = agentDone := by
  exact ⟨(c8_start_shutdown_idempotent agentRunning).1 rfl,
    (c8_start_shutdown_idempotent agentDone).2.1 rfl,
    (c8_start_shutdown_idempotent agentDone).2.2 rfl⟩

/-- C9: for every client identity (including the anonymous `None`) and every
entity id with no mailbox in the manager, `check_mailbox` returns MISSING
and never raises `ForbiddenError`: the missing check precedes the permission
check. -/
theorem c9_check_missing_before_permissions (st : ManagerState)
    (client : Option String) (uid : EntityId)
    (h : alookup st.mailboxes uid = none) :
    st.check_mailbox client uid = .ok .MISSING := by
  unfold ManagerState.check_mailbox
  rw [h]

/-- C9 witness: any client may probe a nonexistent mailbox id on a fresh
manager. -/
theorem c9_check_missing_before_permissions_witness :
    ManagerState.empty.check_mailbox (some "stranger") (.agent 0)
      = .ok .MISSING := by
  exact c9_check_missing_before_permissions ManagerState.empty
    (some "stranger") (.agent 0) rfl

/-- C10: `create_mailbox` called with permission on an id whose mailbox
exists and is open changes nothing at all (queue, owners, behaviors); a
fresh empty queue and a new owner record are installed exactly when the
mailbox is missing or closed. -/
theorem c10_create_mailbox_frame (st : ManagerState) (client : Option String)
    (uid : EntityId) (behavior : Option (List String))
    (hperm : st.has_permissions client uid = true) :
    (∀ mb, alookup st.mailboxes uid = some mb → mb.closed = false →
        st.create_mailbox client uid behavior = .ok st)
      ∧ ((alookup st.mailboxes uid = none ∨
            (∃ mb, alookup st.mailboxes uid = some mb ∧ mb.closed = true)) →
          st.create_mailbox client uid behavior
              = .ok (st.installMailbox client uid behavior)
            ∧ alookup (st.installMailbox client uid behavior).mailboxes uid
              = some AsyncQueue.new
            ∧ alookup (st.installMailbox client uid behavior).owners uid
              = some client) := by
  constructor
  · intro mb hmb hcl
    simp [ManagerState.create_mailbox, hperm, hmb, hcl]
  · intro hcase
    refine ⟨?_, ?_, ?_⟩
    · rcases hcase with hnone | ⟨mb, hmb, hcl⟩
      · simp [ManagerState.create_mailbox, hperm, hnone]
      · simp [ManagerState.create_mailbox, hperm, hmb, hcl]
    · simp [ManagerState.installMailbox, alookup_ainsert]
    · simp [ManagerState.installMailbox, alookup_ainsert]

/-- C10 witness: re-creating agent 0's open mailbox by its owner leaves the
manager exactly as it was; creating it on a fresh manager installs an empty
queue and records the owner. -/
theorem c10_create_mailbox_frame_witness :
    stOwned.create_mailbox (some "a") (.agent 0) none = .ok stOwned
      ∧ ManagerState.empty.create_mailbox (some "a") (.agent 0) none
          = .ok (ManagerState.empty.installMailbox (some "a") (.agent 0) none)
      ∧ alookup (ManagerState.empty.installMailbox (some "a")
            (.agent 0) none).mailboxes (.agent 0) = some AsyncQueue.new
      ∧ alookup (ManagerState.empty.installMailbox (some "a")
            (.agent 0) none).owners (.agent 0) = some (some "a") := by
  have h1 := c10_create_mailbox_frame stOwned (some "a") (.agent 0) none
    (by decide)
  have h2 := c10_create_mailbox_frame ManagerState.empty (some "a")
    (.agent 0) none rfl
  have hi := h2.2 (Or.inl rfl)
  exact ⟨h1.1 AsyncQueue.new rfl rfl, hi.1, hi.2.1, hi.2.2⟩

/-- Helper for C6: a DELETE /mailbox request from a caller with permission
returns 200 and leaves the owner table unchanged, whatever the state of the
mailbox (missing, open, or already terminated). -/
theorem terminate_route_ok_of_perm (st : ManagerState) (client : Option String)
    (uid : EntityId) (hperm : st.has_permissions client uid = true) :
    (terminate_route st client (.valid uid)).1 = 200
      ∧ (terminate_route st client (.valid uid)).2.owners = st.owners := by
  unfold terminate_route ManagerState.terminate
  cases halook : alookup st.mailboxes uid with
  | none => simp [hperm, halook]
  | some mb => simp [hperm, halook]

/-- C6 counterexample: DELETE /mailbox with a well-formed mailbox id is not
200 for every caller: a caller other than the recorded owner receives 403
(`terminate` raises `ForbiddenError`), and the mailbox stays untouched. -/
theorem c6_counterexample :
    (terminate_route stOwned (some "b") (.valid (.agent 0))).1 = 403
      ∧ (terminate_route stOwned (some "b") (.valid (.agent 0))).1 ≠ 200
      ∧ (terminate_route stOwned (some "b") (.valid (.agent 0))).2
        = stOwned := by
  refine ⟨by decide, by decide, by decide⟩

/-- C6 (amended): every DELETE /mailbox request carrying a well-formed
mailbox id from a caller with permission on that id (no recorded owner, or
the recorded owner) returns HTTP 200 for every mailbox state — existing,
already terminated, or missing — and a repeated DELETE also returns 200:
terminate is idempotent for permitted callers, while a caller without
permission receives 403. -/
theorem c6_terminate_idempotent_200 (st : ManagerState)
    (client : Option String) (uid : EntityId)
    (hperm : st.has_permissions client uid = true) :
    ∃ st', terminate_route st client (.valid uid) = (200, st')
      ∧ (terminate_route st' client (.valid uid)).1 = 200 := by
  have h1 := terminate_route_ok_of_perm st client uid hperm
  have hperm' : (terminate_route st client
      (.valid uid)).2.has_permissions client uid = true := by
    unfold ManagerState.has_permissions at hperm ⊢
    rw [h1.2]
    exact hperm
  have h2 := terminate_route_ok_of_perm _ client uid hperm'
  refine ⟨(terminate_route st client (.valid uid)).2, ?_, h2.1⟩
  rw [← h1.1]

/-- C6 witness: the owner of agent 0's mailbox terminates it twice, both
times with HTTP 200. -/
theorem c6_terminate_idempotent_200_witness :
    ∃ st', terminate_route stOwned (some "a") (.valid (.agent 0)) = (200, st')
      ∧ (terminate_route st' (some "a") (.valid (.agent 0))).1 = 200 := by
  exact c6_terminate_idempotent_200 stOwned (some "a") (.agent 0) (by decide)

/-- C4: dispatching an `ActionRequest` yields exactly one response, with the
request's label preserved and src/dest swapped: an `ActionResponse` carrying
the result when the named action exists in the behavior's action table and
returns normally, an `ActionError` carrying the raised exception when the
call raises, and an `ActionError` carrying an `AttributeError` when no
action of that name exists. -/
theorem c4_action_dispatch (behaviorType : String)
    (actions : List (String × ActionFn)) (req : ActionRequest) :
    (Agent.execute_action behaviorType actions req).label = req.label
      ∧ (Agent.execute_action behaviorType actions req).src = req.dest
      ∧ (Agent.execute_action behaviorType actions req).dest = req.src
      ∧ (alookup actions req.action = none →
          Agent.execute_action behaviorType actions req
            = req.error (.attributeError behaviorType req.action))
      ∧ (∀ f, alookup actions req.action = some f →
          (∀ v, f req.pargs req.kargs = .ok v →
            Agent.execute_action behaviorType actions req = req.response v)
          ∧ (∀ e, f req.pargs req.kargs = .error e →
            Agent.execute_action behaviorType actions req = req.error e)) := by
  unfold Agent.execute_action Agent.action
  cases halook : alookup actions req.action with
  | none =>
    simp [ActionRequest.error, ResponseMsg.label, ResponseMsg.src,
      ResponseMsg.dest]
  | some f =>
    cases hres : f req.pargs req.kargs with
    | ok v =>
      simp [hres, ActionRequest.response, ResponseMsg.label, ResponseMsg.src,
        ResponseMsg.dest]
    | error e =>
      simp [hres, ActionRequest.error, ResponseMsg.label, ResponseMsg.src,
        ResponseMsg.dest]

/-- C4 witness: on a concrete behavior, the echo action returns its argument
in an `ActionResponse`, the failing action's exception comes back in an
`ActionError`, and an unknown name comes back as an `AttributeError`, all
with labels preserved. -/
theorem c4_action_dispatch_witness :
    Agent.execute_action "Example" sampleActions sampleReq
        = sampleReq.response 42
      ∧ Agent.execute_action "Example" sampleActions sampleReqFail
        = sampleReqFail.error (.raised 7)
      ∧ Agent.execute_action "Example" sampleActions sampleReqNope
        = sampleReqNope.error (.attributeError "Example" "nope")
      ∧ (Agent.execute_action "Example" sampleActions sampleReq).label = 5 := by
  have h1 := c4_action_dispatch "Example" sampleActions sampleReq
  have h2 := c4_action_dispatch "Example" sampleActions sampleReqFail
  have h3 := c4_action_dispatch "Example" sampleActions sampleReqNope
  have e1 : Agent.execute_action "Example" sampleActions sampleReq
      = sampleReq.response 42 :=
    ((h1.2.2.2.2 echoFn rfl).1 42 rfl)
  refine ⟨e1, (h2.2.2.2.2 failFn rfl).2 (.raised 7) rfl, h3.2.2.2.1 rfl, ?_⟩
  rw [e1]
  rfl

/-- Inversion for `check_mailbox`: a successful check reports MISSING
exactly on an absent mailbox, and otherwise reports the closed flag of the
present mailbox, with the permission check passed. -/
theorem check_mailbox_ok_inv (st : ManagerState) (client : Option String)
    (uid : EntityId) (s : MailboxStatus)
    (h : st.check_mailbox client uid = .ok s) :
    (alookup st.mailboxes uid = none ∧ s = .MISSING)
      ∨ (∃ mb, alookup st.mailboxes uid = some mb
          ∧ st.has_permissions client uid = true
          ∧ s = (if mb.closed then .TERMINATED else .ACTIVE)) := by
  cases halook : alookup st.mailboxes uid with
  | none =>
    have hval : st.check_mailbox client uid = .ok .MISSING := by
      unfold ManagerState.check_mailbox
      rw [halook]
    rw [hval] at h
    cases h
    exact Or.inl ⟨rfl, rfl⟩
  | some mb =>
    have hval : st.check_mailbox client uid =
        (if st.has_permissions client uid then
          (if mb.closed then Except.ok .TERMINATED else Except.ok .ACTIVE)
         else Except.error .forbidden) := by
      unfold ManagerState.check_mailbox
      rw [halook]
    rw [hval] at h
    by_cases hp : st.has_permissions client uid = true
    · rw [if_pos hp] at h
      cases hcl : mb.closed with
      | true =>
        rw [if_pos hcl] at h
        cases h
        exact Or.inr ⟨mb, rfl, hp, by rw [if_pos hcl]⟩
      | false =>
        rw [if_neg (by simp [hcl])] at h
        cases h
        exact Or.inr ⟨mb, rfl, hp, by rw [if_neg (by simp [hcl])]⟩
    · rw [if_neg hp] at h
      exact Except.noConfusion h

/-- Lookup after an association-list update stays defined wherever it was
defined before. -/
theorem alookup_ainsert_isSome {α β : Type} [DecidableEq α]
    (l : List (α × β)) (k u : α) (v : β)
    (h : (alookup l u).isSome = true) :
    (alookup (ainsert l k v) u).isSome = true := by
  rw [alookup_ainsert]
  by_cases hk : k = u
  · simp [hk]
  · simp [hk, h]

/-- Characterization of how one manager operation can change the mailbox
stored at any given id: it is left alone, closed in place, replaced by a
fresh open queue (only by `create_mailbox`), or its message list alone is
replaced (by `put`/`get`), keeping the closed flag. -/
theorem step_mailboxes_lookup (st : ManagerState) (op : ManagerOp)
    (uid : EntityId) :
    alookup (st.step op).mailboxes uid = alookup st.mailboxes uid
      ∨ (∃ mb, alookup st.mailboxes uid = some mb
          ∧ alookup (st.step op).mailboxes uid = some mb.close)
      ∨ (op.isCreate = true
          ∧ alookup (st.step op).mailboxes uid = some AsyncQueue.new)
      ∨ (∃ mb msgs, alookup st.mailboxes uid = some mb
          ∧ alookup (st.step op).mailboxes uid
            = some { mb with messages := msgs }) := by
  cases op with
  | create c u b =>
    by_cases hp : st.has_permissions c u = true
    · by_cases hmiss : (match alookup st.mailboxes u with
        | none => true
        | some mb => mb.closed) = true
      · by_cases hu : u = uid
        · subst hu
          refine Or.inr (Or.inr (Or.inl ⟨rfl, ?_⟩))
          simp [ManagerState.step, ManagerState.create_mailbox, hp, hmiss,
            ManagerState.installMailbox, alookup_ainsert]
        · refine Or.inl ?_
          simp [ManagerState.step, ManagerState.create_mailbox, hp, hmiss,
            ManagerState.installMailbox, alookup_ainsert, hu]
      · refine Or.inl ?_
        simp [ManagerState.step, ManagerState.create_mailbox, hp, hmiss]
    · refine Or.inl ?_
      simp [ManagerState.step, ManagerState.create_mailbox, hp]
  | terminate c u =>
    by_cases hp : st.has_permissions c u = true
    · cases halook : alookup st.mailboxes u with
      | none =>
        refine Or.inl ?_
        simp [ManagerState.step, ManagerState.terminate, hp, halook]
      | some mb =>
        by_cases hu : u = uid
        · subst hu
          refine Or.inr (Or.inl ⟨mb, halook, ?_⟩)
          simp [ManagerState.step, ManagerState.terminate, hp, halook,
            alookup_ainsert]
        · refine Or.inl ?_
          simp [ManagerState.step, ManagerState.terminate, hp, halook,
            alookup_ainsert, hu]
    · refine Or.inl ?_
      simp [ManagerState.step, ManagerState.terminate, hp]
  | put c m =>
    by_cases hp : st.has_permissions c m.dest = true
    · cases halook : alookup st.mailboxes m.dest with
      | none =>
        refine Or.inl ?_
        simp [ManagerState.step, ManagerState.put, hp, halook]
      | some mb =>
        cases hcl : mb.closed with
        | true =>
          refine Or.inl ?_
          simp [ManagerState.step, ManagerState.put, AsyncQueue.put, hp,
            halook, hcl]
        | false =>
          by_cases hu : m.dest = uid
          · subst hu
            refine Or.inr (Or.inr (Or.inr
              ⟨mb, mb.messages ++ [m], halook, ?_⟩))
            simp [ManagerState.step, ManagerState.put, AsyncQueue.put, hp,
              halook, hcl, alookup_ainsert]
          · refine Or.inl ?_
            simp [ManagerState.step, ManagerState.put, AsyncQueue.put, hp,
              halook, hcl, alookup_ainsert, hu]
    · refine Or.inl ?_
      simp [ManagerState.step, ManagerState.put, hp]
  | get c u =>
    by_cases hp : st.has_permissions c u = true
    · cases halook : alookup st.mailboxes u with
      | none =>
        refine Or.inl ?_
        simp [ManagerState.step, ManagerState.get, hp, halook]
      | some mb =>
        cases hmsgs : mb.messages with
        | nil =>
          cases hcl : mb.closed with
          | true =>
            refine Or.inl ?_
            simp [ManagerState.step, ManagerState.get, AsyncQueue.get, hp,
              halook, hmsgs, hcl]
          | false =>
            refine Or.inl ?_
            simp [ManagerState.step, ManagerState.get, AsyncQueue.get, hp,
              halook, hmsgs, hcl]
        | cons msg rest =>
          by_cases hu : u = uid
          · subst hu
            refine Or.inr (Or.inr (Or.inr ⟨mb, rest, halook, ?_⟩))
            simp [ManagerState.step, ManagerState.get, AsyncQueue.get, hp,
              halook, hmsgs, alookup_ainsert]
          · refine Or.inl ?_
            simp [ManagerState.step, ManagerState.get, AsyncQueue.get, hp,
              halook, hmsgs, alookup_ainsert, hu]
    · refine Or.inl ?_
      simp [ManagerState.step, ManagerState.get, hp]

/-- C1 counterexample: a later POST /mailbox (`create_mailbox`) on the same
id revives a TERMINATED mailbox, so a status of ACTIVE is observed after
TERMINATED: status is not monotone across create calls. -/
theorem c1_counterexample :
    stCreatedThenTerminated.check_mailbox none (.agent 0) = .ok .TERMINATED
      ∧ (stCreatedThenTerminated.step
          (.create none (.agent 0) none)).check_mailbox none (.agent 0)
        = .ok .ACTIVE := by
  exact ⟨rfl, rfl⟩

/-- C1 (amended): across every manager operation other than `create_mailbox`
the observed status is monotone non-decreasing in {ACTIVE, TERMINATED}, and
across every operation including `create_mailbox`, MISSING is never observed
after a mailbox has been observed present; `create_mailbox` alone may revive
a TERMINATED mailbox to ACTIVE (create-or-revive). -/
theorem c1_status_monotone (st : ManagerState) (op : ManagerOp)
    (client : Option String) (uid : EntityId) (s1 s2 : MailboxStatus)
    (h1 : st.check_mailbox client uid = .ok s1)
    (h2 : (st.step op).check_mailbox client uid = .ok s2) :
    (op.isCreate = false → s1.rank ≤ s2.rank)
      ∧ (s1 ≠ .MISSING → s2 ≠ .MISSING) := by
  have inv1 := check_mailbox_ok_inv st client uid s1 h1
  have inv2 := check_mailbox_ok_inv (st.step op) client uid s2 h2
  have hlook := step_mailboxes_lookup st op uid
  constructor
  · intro hnc
    rcases inv1 with ⟨_, hs1⟩ | ⟨mb, hmb, _, hs1⟩
    · subst hs1
      exact Nat.zero_le _
    · rcases inv2 with ⟨hnone2, _⟩ | ⟨mb2, hmb2, _, hs2⟩
      · exfalso
        rcases hlook with heq | ⟨mb', hmb', hcl'⟩ | ⟨hc, hnew⟩ | ⟨mb', _, _, hnew⟩
        · rw [heq, hmb] at hnone2
          exact Option.noConfusion hnone2
        · rw [hcl'] at hnone2
          exact Option.noConfusion hnone2
        · rw [hc] at hnc
          exact Bool.noConfusion hnc
        · rw [hnew] at hnone2
          exact Option.noConfusion hnone2
      · subst hs1
        subst hs2
        cases hcl : mb.closed with
        | false =>
          cases hcl2 : mb2.closed <;>
            simp [MailboxStatus.rank, hcl, hcl2]
        | true =>
          have hcl2 : mb2.closed = true := by
            rcases hlook with heq | ⟨mb', hmb', hcl'⟩ | ⟨hc, _⟩ | ⟨mb', msgs, hmb', hnew⟩
            · rw [heq, hmb] at hmb2
              cases hmb2
              exact hcl
            · rw [hcl'] at hmb2
              cases hmb2
              rfl
            · rw [hc] at hnc
              exact Bool.noConfusion hnc
            · rw [hmb'] at hmb
              cases hmb
              rw [hnew] at hmb2
              cases hmb2
              exact hcl
          simp [MailboxStatus.rank, hcl, hcl2]
  · intro hne
    rcases inv1 with ⟨_, hs1⟩ | ⟨mb, hmb, _, hs1⟩
    · exact absurd hs1 hne
    · rcases inv2 with ⟨hnone2, _⟩ | ⟨mb2, _, _, hs2⟩
      · exfalso
        rcases hlook with heq | ⟨mb', hmb', hcl'⟩ | ⟨_, hnew⟩ | ⟨mb', _, _, hnew⟩
        · rw [heq, hmb] at hnone2
          exact Option.noConfusion hnone2
        · rw [hcl'] at hnone2
          exact Option.noConfusion hnone2
        · rw [hnew] at hnone2
          exact Option.noConfusion hnone2
        · rw [hnew] at hnone2
          exact Option.noConfusion hnone2
      · subst hs2
        cases mb2.closed <;> simp

/-- C1 witness: a permitted DELETE /mailbox moves agent 0's status from
ACTIVE to TERMINATED, a non-decreasing, never-MISSING transition. -/
theorem c1_status_monotone_witness :
    MailboxStatus.ACTIVE.rank ≤ MailboxStatus.TERMINATED.rank
      ∧ MailboxStatus.TERMINATED ≠ .MISSING := by
  have h := c1_status_monotone stOwned (.terminate (some "a") (.agent 0))
    (some "a") (.agent 0) .ACTIVE .TERMINATED rfl rfl
  exact ⟨h.1 rfl, h.2 (fun hx => MailboxStatus.noConfusion hx)⟩

/-- Helper for C5: characterization of `discoverList` on any segment of the
behavior table, provided every listed agent has a mailbox and a nonempty
MRO (which creation guarantees). -/
theorem discoverList_spec (st : ManagerState) (client : Option String)
    (behavior : String) (allow_subclasses : Bool)
    (l : List (EntityId × List String))
    (hwf : ∀ p ∈ l, (alookup st.mailboxes p.1).isSome = true ∧ p.2 ≠ []) :
    ∃ found, discoverList st client behavior allow_subclasses l = .ok found
      ∧ ∀ aid, aid ∈ found ↔ ∃ bs, (aid, bs) ∈ l
          ∧ st.has_permissions client aid = true
          ∧ (∃ mb, alookup st.mailboxes aid = some mb ∧ mb.closed = false)
          ∧ (if allow_subclasses then behavior ∈ bs
             else bs.head? = some behavior) := by
  induction l with
  | nil =>
    exact ⟨[], rfl, by simp⟩
  | cons p rest ih =>
    obtain ⟨a, bs⟩ := p
    have hhead := hwf (a, bs) (List.mem_cons_self _ _)
    obtain ⟨found, heq, hiff⟩ :=
      ih (fun p hp => hwf p (List.mem_cons_of_mem _ hp))
    obtain ⟨hmbs, hbsne⟩ := hhead
    obtain ⟨mb, hmb⟩ := Option.isSome_iff_exists.mp hmbs
    by_cases hp : st.has_permissions client a = true
    · cases hcl : mb.closed with
      | true =>
        refine ⟨found, ?_, ?_⟩
        · simp [discoverList, hp, hmb, hcl, heq]
        · intro aid
          rw [hiff aid]
          constructor
          · rintro ⟨bs', hmemr, h1, h2, h3⟩
            exact ⟨bs', List.mem_cons_of_mem _ hmemr, h1, h2, h3⟩
          · rintro ⟨bs', hmem, hperm', hopen', hcond'⟩
            rcases List.mem_cons.mp hmem with heqp | hmemr
            · exfalso
              have ha : aid = a := congrArg Prod.fst heqp
              obtain ⟨mb', hmb', hclmb'⟩ := hopen'
              rw [ha, hmb] at hmb'
              cases hmb'
              rw [hcl] at hclmb'
              exact Bool.noConfusion hclmb'
            · exact ⟨bs', hmemr, hperm', hopen', hcond'⟩
      | false =>
        obtain ⟨b0, tl, rfl⟩ : ∃ b0 tl, bs = b0 :: tl := by
          cases bs with
          | nil => exact absurd rfl hbsne
          | cons b0 tl => exact ⟨b0, tl, rfl⟩
        by_cases hcond : behavior = b0
            ∨ (allow_subclasses = true ∧ behavior ∈ b0 :: tl)
        · refine ⟨a :: found, ?_, ?_⟩
          · simp only [discoverList, hp, hmb, hcl, List.head?_cons,
              eq_self_iff_true, if_true, Bool.false_eq_true, if_false]
            rw [if_pos hcond, heq]
          · intro aid
            constructor
            · intro hmem
              rcases List.mem_cons.mp hmem with rfl | hmemf
              · refine ⟨b0 :: tl, List.mem_cons_self _ _, hp,
                  ⟨mb, hmb, hcl⟩, ?_⟩
                by_cases hallow : allow_subclasses = true
                · rw [if_pos hallow]
                  rcases hcond with hcb | ⟨_, hmemb⟩
                  · rw [hcb]
                    exact List.mem_cons_self _ _
                  · exact hmemb
                · rw [if_neg hallow]
                  rcases hcond with hcb | ⟨hat, _⟩
                  · rw [hcb]
                    rfl
                  · exact absurd hat hallow
              · obtain ⟨bs', hmemr, h1, h2, h3⟩ := (hiff aid).mp hmemf
                exact ⟨bs', List.mem_cons_of_mem _ hmemr, h1, h2, h3⟩
            · rintro ⟨bs', hmem, hperm', hopen', hcond'⟩
              rcases List.mem_cons.mp hmem with heqp | hmemr
              · have ha : aid = a := congrArg Prod.fst heqp
                rw [ha]
                exact List.mem_cons_self _ _
              · exact List.mem_cons_of_mem _
                  ((hiff aid).mpr ⟨bs', hmemr, hperm', hopen', hcond'⟩)
        · refine ⟨found, ?_, ?_⟩
          · simp only [discoverList, hp, hmb, hcl, List.head?_cons,
              eq_self_iff_true, if_true, Bool.false_eq_true, if_false]
            rw [if_neg hcond]
            exact heq
          · intro aid
            rw [hiff aid]
            constructor
            · rintro ⟨bs', hmemr, h1, h2, h3⟩
              exact ⟨bs', List.mem_cons_of_mem _ hmemr, h1, h2, h3⟩
            · rintro ⟨bs', hmem, hperm', hopen', hcond'⟩
              rcases List.mem_cons.mp hmem with heqp | hmemr
              · exfalso
                have hbs : bs' = b0 :: tl := congrArg Prod.snd heqp
                rw [hbs] at hcond'
                apply hcond
                by_cases hallow : allow_subclasses = true
                · rw [if_pos hallow] at hcond'
                  exact Or.inr ⟨hallow, hcond'⟩
                · rw [if_neg hallow] at hcond'
                  have hsome : some b0 = some behavior := hcond'
                  exact Or.inl (Option.some.inj hsome).symm
              · exact ⟨bs', hmemr, hperm', hopen', hcond'⟩
    · refine ⟨found, ?_, ?_⟩
      · simp [discoverList, hp, heq]
      · intro aid
        rw [hiff aid]
        constructor
        · rintro ⟨bs', hmemr, h1, h2, h3⟩
          exact ⟨bs', List.mem_cons_of_mem _ hmemr, h1, h2, h3⟩
        · rintro ⟨bs', hmem, hperm', hopen', hcond'⟩
          rcases List.mem_cons.mp hmem with heqp | hmemr
          · exfalso
            have ha : aid = a := congrArg Prod.fst heqp
            rw [ha] at hperm'
            exact hp hperm'
          · exact ⟨bs', hmemr, hperm', hopen', hcond'⟩

/-- C5: `discover` returns exactly the agent ids the caller has permission
for, whose mailbox is open, and whose recorded behavior MRO matches the
queried behavior name at index 0 when `allow_subclasses` is false, or at
any position when it is true — provided every entry of the behavior table
has a mailbox and a nonempty MRO, as creation guarantees. -/
theorem c5_discover_filter (st : ManagerState) (client : Option String)
    (behavior : String) (allow_subclasses : Bool)
    (hwf : ∀ p ∈ st.behaviors,
      (alookup st.mailboxes p.1).isSome = true ∧ p.2 ≠ []) :
    ∃ found, st.discover client behavior allow_subclasses = .ok found
      ∧ ∀ aid, aid ∈ found ↔ ∃ bs, (aid, bs) ∈ st.behaviors
          ∧ st.has_permissions client aid = true
          ∧ (∃ mb, alookup st.mailboxes aid = some mb ∧ mb.closed = false)
          ∧ (if allow_subclasses then behavior ∈ bs
             else bs.head? = some behavior) := by
  exact discoverList_spec st client behavior allow_subclasses st.behaviors hwf

/-- C5 witness: discovery over the spec's scenario-2 table: X has MRO
[B, A], Y has [A], Z has [C]; querying behavior A with subclasses allowed
matches exactly the entries whose MRO contains A. -/
theorem c5_discover_filter_witness :
    ∃ found, discoverState.discover none "A" true = .ok found
      ∧ ∀ aid, aid ∈ found ↔ ∃ bs, (aid, bs) ∈ discoverState.behaviors
          ∧ discoverState.has_permissions none aid = true
          ∧ (∃ mb, alookup discoverState.mailboxes aid = some mb
              ∧ mb.closed = false)
          ∧ (if true then "A" ∈ bs else bs.head? = some "A") := by
  exact c5_discover_filter discoverState none "A" true (by decide)

end Academy
